import Mathlib

/-!
Verification of the CausalTune scoring engine (`causaltune/cloud_scoring.py`)
against its natural-language specification.

The Python source is shallowly embedded: pandas dataframes become association
lists from column names to rational-valued columns, numpy arrays become lists
of rationals, and fallible code returns `Option` (with `none` standing for a
raised Python exception).  Floating-point numbers are modelled by exact
rationals; `np.inf`, which the scorer uses as its "undefined" sentinel value,
is modelled by the dedicated constructor `PyFloat.inf`.  Square roots (which
are irrational and only appear in float arithmetic in the source) are either
abstracted by a function parameter, or avoided by working with squared
quantities: a comment at each such definition notes the exact relationship to
the source.

Randomised nearest-neighbour tie-breaking in the CODEC core: the source draws
random neighbours only for duplicated points and for distance ties.  The
embedding models the deterministic fragment: when every point has a unique
strictly-nearest neighbour at positive distance the source is deterministic
and the embedding computes exactly its value; otherwise the embedding returns
`none` (the value would depend on the global numpy random state).  All
theorems about CODEC are stated on the deterministic fragment.
-/

namespace CT

/-- A dataframe column: a list of rational values (one per row). -/
abbrev Col := List ℚ

/-- A pandas dataframe, column-major: association list from column name to
column values.  `df[c]` is the first entry named `c`. -/
abbrev Df := List (String × Col)

/-- A Python float that is either an actual number or the `np.inf` sentinel
used by the scorer for "undefined". -/
inductive PyFloat where
  | num (q : ℚ)
  | inf
deriving DecidableEq, Repr

/-- Sum of a list of rationals (`np.sum` / `series.sum()`). -/
def sumQ (l : List ℚ) : ℚ := l.foldr (· + ·) 0

/-- Mean of a list of rationals (`np.mean` / `series.mean()`).
In ℚ, the mean of an empty list evaluates to 0 (division by zero);
the source would produce NaN there, so theorems about means carry
non-emptiness hypotheses. -/
def meanQ (l : List ℚ) : ℚ := sumQ l / l.length

/-- Population variance (`np.std(x)**2`, numpy default `ddof=0`).
The source compares `np.std(x)` against a non-negative threshold `t`;
that comparison is equivalent to comparing `popVar x` against `t^2`,
which keeps the model inside exact rational arithmetic. -/
def popVar (l : List ℚ) : ℚ := meanQ (l.map (fun x => (x - meanQ l) ^ 2))

/-- Column lookup `df[c]` (first match), total with default `[]`. -/
def getColD (df : Df) (c : String) : Col := (df.lookup c).getD []

/-- Column names of a dataframe (`df.columns`). -/
def colNames (df : Df) : List String := df.map Prod.fst

/-- Number of rows of a dataframe (`len(df)`): the length of its first
column (0 for a dataframe with no columns). -/
def rowCount (df : Df) : ℕ := (df.headD ("", [])).2.length

/-- Column assignment `df[c] = vals`: replaces the column in place if it
exists (pandas keeps its position), else appends it on the right. -/
def setCol (df : Df) (c : String) (vals : Col) : Df :=
  if df.any (fun p => p.1 = c) then df.map (fun p => if p.1 = c then (c, vals) else p)
  else df ++ [(c, vals)]

/-- Keep the entries of `col` at the positions where `mask` is `true`
(boolean-mask row selection, per column). -/
def applyMask (mask : List Bool) (col : Col) : Col :=
  (List.zip mask col).filterMap (fun p => if p.1 then some p.2 else none)

/-- Row filter `df[df[c] == v]`. -/
def filterRowsEq (df : Df) (c : String) (v : ℚ) : Df :=
  let mask := (getColD df c).map (fun x => decide (x = v))
  df.map (fun p => (p.1, applyMask mask p.2))

/-- Row-major view of the columns `cols` of `df` (`df[cols].values`):
row `i` lists the `i`-th entry of each requested column. -/
def rowsOf (df : Df) (cols : List String) : List (List ℚ) :=
  (List.range (rowCount df)).map (fun i => cols.map (fun c => (getColD df c).getD i 0))

/-! ## CODEC core (`estimateConditionalQ` / `S` / `T` / `codec`)

Points are rows of a matrix `List (List ℚ)`.  Distances are compared via
their squares (`dist2`), which orders pairs exactly as the Euclidean
distances used by `sklearn.neighbors.NearestNeighbors` do. -/

/-- Squared Euclidean distance between two rows. -/
def dist2 (v w : List ℚ) : ℚ := sumQ (List.zipWith (fun a b => (a - b) ^ 2) v w)

/-- Deterministic nearest neighbour of point `i` in `P`, excluding `i`
itself: returns `some j` when `j` is the unique minimiser of the distance
to `i` among the other points and that distance is positive.  Otherwise the
source's behaviour is randomised (duplicate points are given a random
neighbour from their duplicate group, and distance ties are re-broken by a
random draw among all minimisers), and the embedding returns `none`. -/
def nnClean (P : List (List ℚ)) (i : ℕ) : Option ℕ :=
  let others := (List.range P.length).filter (fun j => decide (j ≠ i))
  let d := fun j => dist2 (P.getD i []) (P.getD j [])
  match others with
  | [] => none
  | j0 :: rest =>
    let m := (rest.map d).foldl min (d j0)
    match others.filter (fun j => decide (d j = m)) with
    | [j] => if 0 < m then some j else none
    | _ => none

/-- The vector `nn_index` of nearest-neighbour indices of the rows of `P`.
`NearestNeighbors(n_neighbors=3)` requires at least 3 samples and at least
1 feature; outside that the source raises (`none`). -/
def nn_index (P : List (List ℚ)) : Option (List ℕ) :=
  if 3 ≤ P.length ∧ 1 ≤ (P.headD []).length then
    (List.range P.length).mapM (nnClean P)
  else none

/-- Stable insertion of index `i` into an index list sorted by the key
`(v[i], i)` in lexicographic order. -/
def insertIdx (v : List ℚ) (i : ℕ) : List ℕ → List ℕ
  | [] => [i]
  | j :: rest =>
      if v.getD i 0 < v.getD j 0 ∨ (v.getD i 0 = v.getD j 0 ∧ i ≤ j) then i :: j :: rest
      else j :: insertIdx v i rest

/-- `np.argsort` on a vector of rationals.  numpy's default sort is not
stable on ties; the embedding fixes the tie order by index, which agrees
with the source whenever the sorted values are distinct (all theorems that
depend on ranks use inputs with distinct values in the relevant places). -/
def argsortQ (v : List ℚ) : List ℕ := (List.range v.length).foldr (insertIdx v) []

/-- `R_Y = np.argsort(np.argsort(Y))`: the (0-based, ordinal) rank of each
entry of `Y`.  (The source comment says ranking "with ties method max", but
double argsort actually produces ordinal ranks; the embedding follows the
code.) -/
def ranks (Y : List ℚ) : List ℕ := argsortQ ((argsortQ Y).map (fun i => (i : ℚ)))

/-- `np.sum(np.minimum(R_Y, R_Y[nn_index]))` as a rational. -/
def sumMinRanks (R : List ℕ) (nn : List ℕ) : ℚ :=
  sumQ ((List.range R.length).map
    (fun i => ((min (R.getD i 0) (R.getD (nn.getD i 0) 0) : ℕ) : ℚ)))

/-- `Z.reshape(-1, 1)`: flatten row-major, then make each element a row. -/
def reshapeCol (Z : List (List ℚ)) : List (List ℚ) := Z.flatten.map (fun q => [q])

/-- `np.hstack((X, Z))` for two matrices: rows are concatenated pairwise;
a row-count mismatch raises (`none`). -/
def hstack2 (X Z : List (List ℚ)) : Option (List (List ℚ)) :=
  if X.length = Z.length then some (List.zipWith (· ++ ·) X Z) else none

/-- `Scorer.estimateConditionalQ(Y, X, Z)`: the numerator statistic
`Q(Y, Z | X)`.  Mirrors the source's order of operations: build
`W = hstack(X, Z.reshape(-1,1))`, nearest neighbours of `X`, nearest
neighbours of `W`, then
`(Σ min(R, R[nn_W]) - Σ min(R, R[nn_X])) / n²` with `R` the double-argsort
ranks of `Y` and `n = len(Y)`. -/
def estimateConditionalQ (Y : List ℚ) (X : List (List ℚ)) (Z : List (List ℚ)) :
    Option ℚ := do
  let Zr := reshapeCol Z
  let n := Y.length
  let W ← hstack2 X Zr
  let nnX ← nn_index X
  let nnW ← nn_index W
  let R := ranks Y
  pure ((sumMinRanks R nnW - sumMinRanks R nnX) / ((n : ℚ) ^ 2))

/-- `Scorer.estimateConditionalS(Y, X)`: the denominator statistic
`S(Y, X) = Σ (R_Y - min(R_Y, R_Y[nn_index_X])) / n²`. -/
def estimateConditionalS (Y : List ℚ) (X : List (List ℚ)) : Option ℚ := do
  let n := Y.length
  let nnX ← nn_index X
  let R := ranks Y
  pure (sumQ ((List.range n).map
    (fun i => ((R.getD i 0 : ℚ) - ((min (R.getD i 0) (R.getD (nnX.getD i 0) 0) : ℕ) : ℚ))))
    / ((n : ℚ) ^ 2))

/-- `Scorer.estimateConditionalT(Y, Z, X) = Q / S`, with the fallback
`T = 1` when `S = 0` (the source comment: "Happens only if Y is constant").
Note the argument order: the source forwards `estimateConditionalQ(Y, X, Z)`. -/
def estimateConditionalT (Y : List ℚ) (Z : List (List ℚ)) (X : List (List ℚ)) :
    Option ℚ := do
  let S ← estimateConditionalS Y X
  if S = 0 then pure 1
  else do
    let Q ← estimateConditionalQ Y X Z
    pure (Q / S)

/-- `Scorer.codec(Y, Z, X)`.  `Z` is the predictor matrix; a 1-D numpy
vector argument `Z` of the source is modelled as an `(n, 1)` matrix, which
`estimateConditionalQ` treats identically (both reshape to `(n, 1)`).
With `X = None` the source checks the row counts, removes non-finite rows
(`na_rm`; every rational is finite, so the mask keeps all rows), requires
`n ≥ 2`, and then calls `estimateConditionalQ(Y, Z, np.zeros((n, 0)))` —
positionally this passes the data `Z` as the conditioning argument `X` and
the zero-width matrix as the argument `Z`.
With `X` present it checks that all three row counts agree and `n ≥ 2`,
then returns `estimateConditionalT(Y, Z, X)`. -/
def codec (Y : List ℚ) (Z : List (List ℚ)) (X : Option (List (List ℚ))) : Option ℚ :=
  match X with
  | none =>
    if Y.length ≠ Z.length then none
    else
      let n := Y.length
      if n < 2 then none
      else estimateConditionalQ Y Z (List.replicate n [])
  | some X0 =>
    if Y.length ≠ X0.length ∨ Y.length ≠ Z.length ∨ X0.length ≠ Z.length then none
    else if Y.length < 2 then none
    else estimateConditionalT Y Z X0

/-! ## Metric catalog (`supported_metrics`) and metric resolution -/

/-- `supported_metrics(problem, multivalue, scores_only)`.  For a problem
other than `"iv"` and `"backdoor"` the Python function falls through and
implicitly returns `None`, modelled as `none`. -/
def supported_metrics (problem : String) (multivalue : Bool) (scores_only : Bool) :
    Option (List String) :=
  if problem = "iv" then
    some (["energy_distance", "frobenius_norm", "codec"]
      ++ if scores_only then [] else ["ate"])
  else if problem = "backdoor" then
    if multivalue then some ["energy_distance", "psw_energy_distance"]
    else
      some (["erupt", "norm_erupt", "prob_erupt", "policy_risk", "qini", "auc",
             "energy_distance", "psw_energy_distance", "frobenius_norm", "codec"]
        ++ if scores_only then [] else ["ate"])
  else none

/-- `Scorer.resolve_metric(metric)` for a scorer with the given problem type
and multivalue flag.  Returns the resolved metric name together with the
number of warnings logged.  When `supported_metrics` yields `None`, the
membership test `metric not in metrics` raises `TypeError`
(`Except.error`). -/
def resolve_metric (problem : String) (multivalue : Bool) (metric : String) :
    Except String (String × ℕ) :=
  match supported_metrics problem multivalue true with
  | none => Except.error "TypeError"
  | some metrics =>
    if metric ∈ metrics then Except.ok (metric, 0)
    else Except.ok ("energy_distance", 1)

/-- `sorted(list(set(l)))` on a list of strings: deduplicate, then sort
lexicographically (as Python's `sorted` does).  Python's set iteration
order is unspecified, but the subsequent sort makes the result
deterministic: the ≤-sorted list of the distinct elements. -/
def sortedDedup (l : List String) : List String :=
  l.dedup.insertionSort (· ≤ ·)

/-- `Scorer.resolve_reported_metrics(metrics_to_report, scoring_metric)`.
Returns the resulting list (or `None`, as the source returns the
unsupported-problem `metrics = None` unchanged) together with the number of
warnings logged.  The source's loop over
`sorted(list(set(metrics_to_report + [scoring_metric])))` that removes
unsupported names is modelled as a filter; each removed name logs one
warning.  When `supported_metrics` is `None` and a report list is given,
the first membership test `m not in metrics` raises `TypeError`. -/
def resolve_reported_metrics (problem : String) (multivalue : Bool)
    (metrics_to_report : Option (List String)) (scoring_metric : String) :
    Except String (Option (List String) × ℕ) :=
  match supported_metrics problem multivalue false with
  | none =>
    match metrics_to_report with
    | none => Except.ok (none, 0)
    | some _ => Except.error "TypeError"
  | some metrics =>
    match metrics_to_report with
    | none => Except.ok (some metrics, 0)
    | some l =>
      let merged := sortedDedup (l ++ [scoring_metric])
      Except.ok (some (merged.filter (fun m => decide (m ∈ metrics))),
        (merged.filter (fun m => decide (m ∉ metrics))).length)

/-! ## `naive_ate` -/

/-- `Scorer.naive_ate(treatment, outcome)`.  The two float square roots of
the source (`math.sqrt` and the one inside `pandas .std()`) are abstracted
by the parameters `sqrtA` and `stdA`: they only enter the middle (standard
deviation) component of the returned triple, which no claim constrains
numerically.  Boolean indexing `outcome[treatment == 1]` is positional,
modelled by zipping the two series. -/
def naive_ate (sqrtA : ℚ → ℚ) (stdA : List ℚ → ℚ)
    (treatment outcome : List ℚ) : ℚ × ℚ × ℕ :=
  let treated : ℕ := (treatment.filter (fun t => decide (t = 1))).length
  let pairs := List.zip treatment outcome
  let o1 := (pairs.filter (fun p => decide (p.1 = 1))).map Prod.snd
  let o0 := (pairs.filter (fun p => decide (p.1 = 0))).map Prod.snd
  let mean_ := meanQ o1 - meanQ o0
  let std1 := stdA o1 / (sqrtA (treated : ℚ) + 1 / 1000)
  let std2 := stdA o0 / (sqrtA ((outcome.length : ℚ) - (treated : ℚ)) + 1 / 1000)
  let std_ := sqrtA (std1 * std1 + std2 * std2)
  (mean_, std_, treatment.length)

/-! ## Estimator and scorer state

`CausalEstimate.estimator` objects and the fitted propensity model are
external collaborators (fitted by dowhy/econml/sklearn); the embedding
captures exactly the interface the scoring code reads: names, and the
`effect` / `effect_tt` / `predict_proba` prediction functions as opaque
function parameters. -/

/-- The slice of a fitted `estimate.estimator` that the metric functions
read.  `treatment_name` is kept as a list: the source resolves
`est._treatment_name if isinstance(est._treatment_name, str) else
est._treatment_name[0]`, modelled by taking the head. -/
structure EstimatorM where
  treatment_name : List String
  outcome_name : String
  effect_modifier_names : List String
  identifier_method : String
  estimating_instrument_names : List String
  effect : Df → List ℚ
  effect_tt : Df → List ℚ

/-- The slice of a constructed `Scorer` that the metric functions read:
the problem tag, the fitted propensity model
(`psw_estimator.estimator.propensity_model.predict_proba`, modelled
row-wise: row ↦ per-treatment-level probability vector), and the column
name lists of the causal model and of the weighting estimator. -/
structure ScorerM where
  problem : String
  multivalue : Bool
  predict_proba : List ℚ → List ℚ
  effect_modifiers : List String
  common_causes : List String
  psw_treatment_name : String
  psw_effect_modifier_names : List String

/-- Result of `Scorer._Y0_X_potential_outcomes(estimate, df)`.  `caller` is
the dataframe object the caller passed in, as it stands after the call:
the source assigns `df["dy"]` and `df["yhat"]` on it in place, and only
then takes `Y0X = copy.deepcopy(df)` — so the caller's dataframe ends up
mutated and `Y0X` is a value-equal copy. -/
structure Y0XOut where
  caller : Df
  Y0X : Df
  treatment_name : String
  split_test_by : String

/-- `Scorer._Y0_X_potential_outcomes(estimate, df)` (source name has a
leading underscore): adds `dy = effect_tt(df)` and
`yhat = df[outcome] - dy` to `df` in place, resolves the treatment name,
and picks the split column (sole instrument for "iv", else treatment). -/
def Y0_X_potential_outcomes (estimate : EstimatorM) (df : Df) : Y0XOut :=
  let treatment_name := estimate.treatment_name.headD ""
  let df1 := setCol df "dy" (estimate.effect_tt df)
  let df2 := setCol df1 "yhat"
    (List.zipWith (· - ·) (getColD df1 estimate.outcome_name) (getColD df1 "dy"))
  let split_test_by :=
    if estimate.identifier_method = "iv" then estimate.estimating_instrument_names.headD ""
    else treatment_name
  ⟨df2, df2, treatment_name, split_test_by⟩

/-- `Scorer.energy_distance_score(estimate, df)`.  The energy-distance
primitive `dcor.energy_distance` is an external library, abstracted by the
parameter `dcor_energy`.  Returns the score together with the caller's
dataframe after the call (mutated by `_Y0_X_potential_outcomes`). -/
def energy_distance_score (dcor_energy : List (List ℚ) → List (List ℚ) → ℚ)
    (estimate : EstimatorM) (df : Df) : ℚ × Df :=
  let r := Y0_X_potential_outcomes estimate df
  let YX_1 := filterRowsEq r.Y0X r.split_test_by 1
  let YX_0 := filterRowsEq r.Y0X r.split_test_by 0
  let select_cols := estimate.effect_modifier_names ++ ["yhat"]
  (dcor_energy (rowsOf YX_1 select_cols) (rowsOf YX_0 select_cols), r.caller)

/-- numpy integer indexing `v[:, i]` column selection uses the treatment
value as an index; treatment values are small non-negative integers stored
as rationals, converted by taking the numerator. -/
def ratIdx (q : ℚ) : ℕ := q.num.toNat

/-- Propensity weights of the treated group: for each row, the predicted
probability of that row's realised treatment level
(`YX_1_all_psw[:, i][treatment_series == i]` per level `i`, which selects
per row the column given by the row's treatment value). -/
def pswTreated (S : ScorerM) (df1 : Df) (tname : String) : List ℚ :=
  let rows := rowsOf df1 (S.effect_modifiers ++ S.common_causes)
  let t := getColD df1 tname
  (List.range (rowCount df1)).map
    (fun i => (S.predict_proba (rows.getD i [])).getD (ratIdx (t.getD i 0)) 0)

/-- Propensity weights of the control group: column 0 of
`predict_proba` (`[:, 0]`). -/
def pswControl (S : ScorerM) (df0 : Df) : List ℚ :=
  let rows := rowsOf df0 (S.effect_modifiers ++ S.common_causes)
  (List.range (rowCount df0)).map (fun i => (S.predict_proba (rows.getD i [])).getD 0 0)

/-- Elementwise product of two matrices (`np.multiply`). -/
def hadamard (A B : List (List ℚ)) : List (List ℚ) :=
  List.zipWith (List.zipWith (· * ·)) A B

/-- Scalar multiple of a matrix. -/
def smulM (c : ℚ) (A : List (List ℚ)) : List (List ℚ) := A.map (List.map (c * ·))

/-- `np.mean` of a matrix: total sum over total entry count. -/
def meanM (A : List (List ℚ)) : ℚ := sumQ (A.map sumQ) / (sumQ (A.map (·.length)) : ℚ)

/-- `Scorer.psw_energy_distance(estimate, df, normalise_features)`.
External collaborators are parameters: `joint_w` is
`causaltune.utils.psw_joint_weights` (imported by the source from a module
not in this repository), `pairwise` is `dcor.distances.pairwise_distances`
(the one-argument form of the source is `pairwise A A`), and `qt` is the
fitted-and-applied `QuantileTransformer(n_quantiles=200).fit_transform`.
Returns the score together with the caller's dataframe after the call. -/
def psw_energy_distance (S : ScorerM)
    (joint_w : List ℚ → List ℚ → List (List ℚ))
    (pairwise : List (List ℚ) → List (List ℚ) → List (List ℚ))
    (qt : List (List ℚ) → List (List ℚ))
    (estimate : EstimatorM) (df : Df) (normalise_features : Bool) : ℚ × Df :=
  let r := Y0_X_potential_outcomes estimate df
  let Y0X := r.Y0X
  let Y0X_1 := filterRowsEq Y0X r.split_test_by 1
  let Y0X_0 := filterRowsEq Y0X r.split_test_by 0
  let YX_1_psw := pswTreated S Y0X_1 r.treatment_name
  let YX_0_psw := pswControl S Y0X_0
  let select_cols := estimate.effect_modifier_names ++ ["yhat"]
  let features := estimate.effect_modifier_names
  let xy_psw := joint_w YX_1_psw YX_0_psw
  let xx_psw := joint_w YX_0_psw YX_0_psw
  let yy_psw := joint_w YX_1_psw YX_1_psw
  let xy_mean_weights := meanM xy_psw
  let xx_mean_weights := meanM xx_psw
  let yy_mean_weights := meanM yy_psw
  let split := r.split_test_by
  let Y0X_1f :=
    if normalise_features then
      let Xq := qt (rowsOf Y0X features)
      let Y0Xt : Df :=
        (List.range features.length).map
          (fun j => (features.getD j "", Xq.map (fun row => row.getD j 0)))
        ++ [("yhat", getColD Y0X "yhat"), (split, getColD Y0X split)]
      filterRowsEq Y0Xt split 1
    else Y0X_1
  let Y0X_0f :=
    if normalise_features then
      let Xq := qt (rowsOf Y0X features)
      let Y0Xt : Df :=
        (List.range features.length).map
          (fun j => (features.getD j "", Xq.map (fun row => row.getD j 0)))
        ++ [("yhat", getColD Y0X "yhat"), (split, getColD Y0X split)]
      filterRowsEq Y0Xt split 0
    else Y0X_0
  let distance_xy := smulM (1 / xy_mean_weights)
    (hadamard xy_psw (pairwise (rowsOf Y0X_1f select_cols) (rowsOf Y0X_0f select_cols)))
  let distance_yy := smulM (1 / yy_mean_weights)
    (hadamard yy_psw (pairwise (rowsOf Y0X_1f select_cols) (rowsOf Y0X_1f select_cols)))
  let distance_xx := smulM (1 / xx_mean_weights)
    (hadamard xx_psw (pairwise (rowsOf Y0X_0f select_cols) (rowsOf Y0X_0f select_cols)))
  (2 * meanM distance_xy - meanM distance_xx - meanM distance_yy, r.caller)

/-! ## Frobenius-norm score -/

/-- The core of `frobenius_norm_score` after the split (source lines: the
empty-group check, truncation of both groups and both weight vectors to
`min_rows` leading rows, the weighted difference matrix
`D = (Y1 - Y0) * sqrt(w1 * w0)`, and
`normalized_score = ||D||_F / sqrt(n * p)`).  To stay in exact rational
arithmetic this returns the SQUARE of the source's normalized score:
`||D||_F² / (n·p) = Σᵢ w1ᵢ·w0ᵢ·Σⱼ (y1ᵢⱼ - y0ᵢⱼ)² / (n·p)` since
`sqrt(w1·w0)² = w1·w0`.  The square is a strictly monotone bijection on
the non-negative floats involved, so "which rows enter the matrix" and
"when is the sentinel returned" are unchanged.  (`np.isfinite` of the
source can only fail through float overflow, which exact rationals do not
model.) -/
def frobCoreSq (g1 g0 : List (List ℚ)) (w1 w0 : List ℚ) : PyFloat :=
  if g1.length = 0 ∨ g0.length = 0 then PyFloat.inf
  else
    let min_rows := min g1.length g0.length
    let t1 := g1.take min_rows
    let t0 := g0.take min_rows
    let v1 := w1.take min_rows
    let v0 := w0.take min_rows
    let p := (t1.headD []).length
    let normSq := sumQ ((List.range min_rows).map
      (fun i => v1.getD i 0 * v0.getD i 0 * dist2 (t1.getD i []) (t0.getD i [])))
    PyFloat.num (normSq / ((min_rows : ℚ) * (p : ℚ)))

/-- `Scorer.frobenius_norm_score(estimate, df, sd_threshold)` (the source
default is `sd_threshold = 1e-2`).  The standard-deviation guard
`np.std(cate) <= sd_threshold` is modelled as
`popVar cate ≤ sd_threshold²` (equivalent for the non-negative thresholds
used).  The `AttributeError` fallback chain for obtaining CATE estimates
is not modelled: `effect` is a total function field of the embedding.
Returns the squared score (see `frobCoreSq`) together with the caller's
dataframe after the call. -/
def frobenius_norm_score (S : ScorerM) (estimate : EstimatorM) (df : Df)
    (sd_threshold : ℚ) : PyFloat × Df :=
  let cate := estimate.effect df
  if popVar cate ≤ sd_threshold ^ 2 then (PyFloat.inf, df)
  else
    let r := Y0_X_potential_outcomes estimate df
    let Y0X_1 := filterRowsEq r.Y0X r.split_test_by 1
    let Y0X_0 := filterRowsEq r.Y0X r.split_test_by 0
    if rowCount Y0X_1 = 0 ∨ rowCount Y0X_0 = 0 then (PyFloat.inf, r.caller)
    else
      let select_cols := estimate.effect_modifier_names ++ ["yhat"]
      let YX_1_psw := pswTreated S Y0X_1 r.treatment_name
      let YX_0_psw := pswControl S Y0X_0
      (frobCoreSq (rowsOf Y0X_1 select_cols) (rowsOf Y0X_0 select_cols)
        YX_1_psw YX_0_psw, r.caller)

/-! ## Policy risk -/

/-- `Scorer.default_policy(cate) = (cate > 0).astype(int)`. -/
def default_policy (cate : List ℚ) : List ℚ :=
  cate.map (fun c => if 0 < c then (1 : ℚ) else 0)

/-- `Scorer.policy_risk_score(estimate, df, cate_estimate, outcome_name)`
with the defaults `policy=None` (→ `default_policy`), `rct_indices=None`
(→ all rows), `sd_threshold` (source default `1e-2`) and `clip` (source
default `0.05`).  As in `frobenius_norm_score`, the guard
`np.std(cate) <= sd_threshold` is modelled as `popVar ≤ sd_threshold²`.
The working columns `weight` and `policy_treatment` are added to
`rct_df = df.loc[...].copy()`, a private copy, so the caller's dataframe
is returned unchanged as the second component.  The propensity vector is
`predict_proba(df[["random"] + psw_effect_modifier_names])[:, 1]`, clipped
to `[clip, 1 - clip]`.  Missing-column `KeyError` paths (e.g. no "random"
column) are not modelled (total `getD` lookups); no claim depends on
them. -/
def policy_risk_score (S : ScorerM) (df : Df) (cate_estimate : List ℚ)
    (outcome_name : String) (sd_threshold clip : ℚ) : PyFloat × Df :=
  if popVar cate_estimate ≤ sd_threshold ^ 2 then (PyFloat.num 0, df)
  else
    let n := rowCount df
    let policy_treatment := default_policy cate_estimate
    let rows := rowsOf df ("random" :: S.psw_effect_modifier_names)
    let propensity_scores := (List.range n).map
      (fun i => (S.predict_proba (rows.getD i [])).getD 1 0)
    let p := propensity_scores.map (fun q => min (max q clip) (1 - clip))
    let t := getColD df S.psw_treatment_name
    let weights := (List.range n).map
      (fun i => if t.getD i 0 = 1 then 1 / p.getD i 0 else 1 / (1 - p.getD i 0))
    let y := getColD df outcome_name
    let wsum := sumQ weights
    let ind : Bool → ℚ := fun b => if b then 1 else 0
    let value_policy :=
      sumQ ((List.range n).map (fun i =>
          y.getD i 0 * ind (t.getD i 0 = 1) * ind (policy_treatment.getD i 0 = 1)
            * weights.getD i 0)) / wsum
        * meanQ (policy_treatment.map (fun x => ind (x = 1)))
      + sumQ ((List.range n).map (fun i =>
          y.getD i 0 * ind (t.getD i 0 = 0) * ind (policy_treatment.getD i 0 = 0)
            * weights.getD i 0)) / wsum
        * meanQ (policy_treatment.map (fun x => ind (x = 0)))
    (PyFloat.num (1 - value_policy), df)

/-! ## CODEC as a causal score -/

/-- `Scorer.identify_confounders(df, treatment_col, outcome_col)`. -/
def identify_confounders (df : Df) (treatment_col outcome_col : String) :
    List String :=
  (colNames df).filter
    (fun c => decide (c ∉ [treatment_col, outcome_col, "random", "index"]))

/-- `Scorer.codec_score(estimate, df)`.  Computes the confounder list from
the incoming dataframe, the CATE estimates and their standard deviation,
then assigns `df["dy"]` and `df["yhat"]` on the caller's dataframe in
place (no copy is taken), short-circuits to the `np.inf` sentinel when
`np.std(cate) < 0.01` (modelled as `popVar < (1/100)²`), and otherwise
returns `codec(yhat, treatment, df[confounders])`.  An exception raised
inside `codec` propagates (`none`).  The second component is the caller's
dataframe after the call. -/
def codec_score (estimate : EstimatorM) (df : Df) : Option PyFloat × Df :=
  let treatment_name := estimate.treatment_name.headD ""
  let outcome_name := estimate.outcome_name
  let confounders := identify_confounders df treatment_name outcome_name
  let cate_est := estimate.effect df
  let df1 := setCol df "dy" (estimate.effect_tt df)
  let df2 := setCol df1 "yhat"
    (List.zipWith (· - ·) (getColD df1 outcome_name) (getColD df1 "dy"))
  let Y := getColD df2 "yhat"
  let Z := (getColD df2 treatment_name).map (fun q => [q])
  let X := rowsOf df2 confounders
  if popVar cate_est < (1 / 100) ^ 2 then (some PyFloat.inf, df2)
  else ((codec Y Z (some X)).map PyFloat.num, df2)

/-! ## Score aggregation (`make_scores`) -/

/-- A value of the Score Record returned by `make_scores`: either a scalar
metric value or the per-row diagnostic `"values"` table. -/
inductive OutVal where
  | num (v : PyFloat)
  | table (t : Df)
deriving DecidableEq

/-- External collaborators consumed by the aggregator, abstracted as
opaque functions: the ERUPT weighting/scoring object (`erupt_score`,
`erupt_weights_row` — modelled row-wise so weight vectors have one entry
per row, `prob_erupt_score`), the uplift-metrics library
(`qini_score`, `auuc_score` on a three-column frame), the dcor
distance primitives and `causaltune.utils.psw_joint_weights` (as in
`psw_energy_distance`), the float square root `sqrtA`, and the fitted
weighting estimator's `effect` (used by `Scorer.ate`). -/
structure AggExtras where
  erupt_score : Df → Col → List Bool → ℚ
  erupt_weights_row : List ℚ → ℚ
  prob_erupt_score : Df → Col → List ℚ → List ℚ → ℚ
  qini_score : Df → ℚ
  auuc_score : Df → ℚ
  dcor_energy : List (List ℚ) → List (List ℚ) → ℚ
  joint_w : List ℚ → List ℚ → List (List ℚ)
  pairwise : List (List ℚ) → List (List ℚ) → List (List ℚ)
  qt : List (List ℚ) → List (List ℚ)
  sqrtA : ℚ → ℚ
  ate_effect : Df → List (List ℚ)

/-- `array.mean(axis=0)` of an `(n, d)` array: per-column means. -/
def colMeans (m : List (List ℚ)) : List ℚ :=
  (List.range (m.headD []).length).map (fun j => meanQ (m.map (fun r => r.getD j 0)))

/-- `Scorer.qini_make_score(estimate, df, cate_estimate)`: builds the
three-column frame `{y, w, model}` and delegates to the uplift library. -/
def qini_make_score (E : AggExtras) (estimate : EstimatorM) (df : Df)
    (cate : List ℚ) : ℚ :=
  E.qini_score [("y", getColD df estimate.outcome_name),
    ("w", getColD df (estimate.treatment_name.headD "")), ("model", cate)]

/-- `Scorer.auc_make_score(estimate, df, cate_estimate)`. -/
def auc_make_score (E : AggExtras) (estimate : EstimatorM) (df : Df)
    (cate : List ℚ) : ℚ :=
  E.auuc_score [("y", getColD df estimate.outcome_name),
    ("w", getColD df (estimate.treatment_name.headD "")), ("model", cate)]

/-- The tail of `make_scores` shared by both problem types (source lines
after the backdoor block): the `ate`/`ate_std` entries and the
`energy_distance`, `psw_energy_distance` and `codec` entries, threading
the dataframe mutations of the metric functions through in call order.
An exception inside `codec_score` is not caught and aborts the whole
call (`none`). -/
def genericMetrics (S : ScorerM) (E : AggExtras) (estimate : EstimatorM)
    (df : Df) (cate : List ℚ) (metrics_to_report : List String) :
    Option (List (String × OutVal)) :=
  let outA : List (String × OutVal) :=
    if "ate" ∈ metrics_to_report then
      [("ate", OutVal.num (PyFloat.num (meanQ cate))),
       ("ate_std", OutVal.num (PyFloat.num (E.sqrtA (popVar cate))))]
    else []
  let eStep := energy_distance_score E.dcor_energy estimate df
  let outB := outA ++
    (if "energy_distance" ∈ metrics_to_report then
      [("energy_distance", OutVal.num (PyFloat.num eStep.1))] else [])
  let df3 := if "energy_distance" ∈ metrics_to_report then eStep.2 else df
  let pStep := psw_energy_distance S E.joint_w E.pairwise E.qt estimate df3 false
  let outC := outB ++
    (if "psw_energy_distance" ∈ metrics_to_report then
      [("psw_energy_distance", OutVal.num (PyFloat.num pStep.1))] else [])
  let df4 := if "psw_energy_distance" ∈ metrics_to_report then pStep.2 else df3
  if "codec" ∈ metrics_to_report then
    match (codec_score estimate df4).1 with
    | none => none
    | some c => some (outC ++ [("codec", OutVal.num c)])
  else some outC

/-- The `"values"` diagnostic table of the backdoor branch of
`make_scores`: the treatment and outcome columns of the (reset-index)
dataframe; when the ATE estimate is a scalar
(`isinstance(simple_ate, float)`, modelled as the per-column-mean vector
having length 1) the `p` (propensity), `policy` (`cate > 0`),
`norm_policy` (`cate > simple_ate`) and `weights` (ERUPT weights) columns
are added, with boolean columns stored as 0/1. -/
def backdoorValuesTable (S : ScorerM) (E : AggExtras) (df1 : Df) (tn yn : String)
    (tcol ycol : Col) (cate : List ℚ) (ateRes : List ℚ) : Df :=
  let values0 : Df := [(tn, tcol), (yn, ycol)]
  if ateRes.length = 1 then
    let simple_ate := ateRes.headD 0
    let pcol := (List.range (rowCount df1)).map (fun i =>
      (S.predict_proba
        ((rowsOf df1 (S.effect_modifiers ++ S.common_causes)).getD i [])).getD 1 0)
    let ws := (rowsOf df1 (colNames df1)).map E.erupt_weights_row
    setCol (setCol (setCol (setCol values0 "p" pcol) "policy"
      (cate.map (fun c => if 0 < c then (1 : ℚ) else 0))) "norm_policy"
      (cate.map (fun c => if simple_ate < c then (1 : ℚ) else 0))) "weights" ws
  else values0

/-- The metric entries of the backdoor branch of `make_scores` that are
inserted before the `"values"` entry (`erupt`, `norm_erupt`, `prob_erupt`,
`frobenius_norm`, `policy_risk`, `qini`, `auc`, in source order), paired
with the dataframe as it stands afterwards (mutated by
`frobenius_norm_score` when that metric was requested).  The source wraps
the `policy_risk` computation in `try/except` and omits the entry on
failure; the embedded `policy_risk_score` is total, so the entry is always
present when requested. -/
def backdoorPre (S : ScorerM) (E : AggExtras) (est : EstimatorM) (df1 : Df)
    (ycol : Col) (values : Df) (cate : List ℚ) (simple_ate : ℚ)
    (metrics_to_report : List String) : List (String × OutVal) × Df :=
  let out1 : List (String × OutVal) :=
    (if "erupt" ∈ metrics_to_report then
      [("erupt", OutVal.num (PyFloat.num
        (E.erupt_score df1 ycol (cate.map (fun c => decide (0 < c))))))]
    else [])
    ++ (if "norm_erupt" ∈ metrics_to_report then
      [("norm_erupt", OutVal.num (PyFloat.num
        (E.erupt_score df1 ycol (cate.map (fun c => decide (simple_ate < c)))
          - simple_ate * meanQ (getColD values "norm_policy"))))]
    else [])
    ++ (if "prob_erupt" ∈ metrics_to_report then
      [("prob_erupt", OutVal.num (PyFloat.num
        (E.prob_erupt_score df1 ycol cate
          (List.replicate (rowCount df1) (E.sqrtA (popVar cate))))))]
    else [])
  let frobStep := frobenius_norm_score S est df1 (1 / 100)
  let out2 := out1 ++
    (if "frobenius_norm" ∈ metrics_to_report then
      [("frobenius_norm", OutVal.num frobStep.1)] else [])
  let df2 := if "frobenius_norm" ∈ metrics_to_report then frobStep.2 else df1
  let out3 := out2 ++
    (if "policy_risk" ∈ metrics_to_report then
      [("policy_risk", OutVal.num
        (policy_risk_score S df2 cate est.outcome_name (1 / 100) (1 / 20)).1)]
    else [])
  let out4 := out3 ++
    (if "qini" ∈ metrics_to_report then
      [("qini", OutVal.num (PyFloat.num (qini_make_score E est df2 cate)))]
    else [])
  let out5 := out4 ++
    (if "auc" ∈ metrics_to_report then
      [("auc", OutVal.num (PyFloat.num (auc_make_score E est df2 cate)))]
    else [])
  (out5, df2)

/-- The `"backdoor"` branch of `make_scores`, operating on the
reset-index dataframe `df1`: looks up the treatment and outcome columns
(`KeyError` = `none`), assembles the `"values"` table and the leading
metric entries, checks the fatal assertion `len(values) == len(df)`
(failure raises `AssertionError` = `none`), and appends the `"values"`
entry and the trailing `genericMetrics` entries. -/
def backdoorBranch (S : ScorerM) (E : AggExtras) (estimate : EstimatorM)
    (df1 : Df) (metrics_to_report : List String) :
    Option (List (String × OutVal)) :=
  let treatment_name := estimate.treatment_name.headD ""
  let outcome_name := estimate.outcome_name
  let cate := estimate.effect df1
  match df1.lookup treatment_name, df1.lookup outcome_name with
  | some tcol, some ycol =>
    let ateRes := colMeans (E.ate_effect df1)
    let values :=
      backdoorValuesTable S E df1 treatment_name outcome_name tcol ycol cate ateRes
    let pre := backdoorPre S E estimate df1 ycol values cate (ateRes.headD 0)
      metrics_to_report
    if rowCount values = rowCount pre.2 then
      match genericMetrics S E estimate pre.2 cate metrics_to_report with
      | some tail => some (pre.1 ++ [("values", OutVal.table values)] ++ tail)
      | none => none
    else none
  | _, _ => none

/-- `Scorer.make_scores(estimate, df, metrics_to_report)` with
`r_scorer = None`.  `df.copy().reset_index()` inserts the old index as a
new first column `"index"` (raising if such a column already exists); the
`"backdoor"` branch is `backdoorBranch`, and the remaining entries shared
with the "iv" problem type are `genericMetrics`.  Missing-column
`KeyError` paths inside helper computations other than the two explicit
lookups are modelled by total `getD` lookups; no claim depends on
them. -/
def make_scores (S : ScorerM) (E : AggExtras) (estimate : EstimatorM) (df : Df)
    (metrics_to_report : List String) : Option (List (String × OutVal)) :=
  if "index" ∈ colNames df then none
  else
    let df1 : Df :=
      ("index", List.map (fun (i : ℕ) => (i : ℚ)) (List.range (rowCount df))) :: df
    if S.problem = "backdoor" then backdoorBranch S E estimate df1 metrics_to_report
    else genericMetrics S E estimate df1 (estimate.effect df1) metrics_to_report

/-! ## Ranking (`best_score_by_estimator`) -/

/-- One entry of the `scores` dictionary passed to
`best_score_by_estimator`: a record with an optional `estimator_name` field
(`none` = field missing) and a mapping from metric names to values. -/
structure ScoreRec where
  estimator_name : Option String
  vals : List (String × ℚ)
deriving DecidableEq, Repr

/-- Python's `min(l, key=key)`: the first element attaining the minimal
key.  A missing key (`none`) raises a `KeyError` inside `min`, and an
empty list raises `ValueError`; both are `none`. -/
def pyMinBy (key : ScoreRec → Option ℚ) (l : List ScoreRec) : Option ScoreRec :=
  if l.all (fun a => (key a).isSome) then
    match l with
    | [] => none
    | a :: rest =>
      some (rest.foldl (fun best c =>
        if (key c).getD 0 < (key best).getD 0 then c else best) a)
  else none

/-- Python's `max(l, key=key)`: the first element attaining the maximal
key. -/
def pyMaxBy (key : ScoreRec → Option ℚ) (l : List ScoreRec) : Option ScoreRec :=
  if l.all (fun a => (key a).isSome) then
    match l with
    | [] => none
    | a :: rest =>
      some (rest.foldl (fun best c =>
        if (key best).getD 0 < (key c).getD 0 then c else best) a)
  else none

/-- The fixed "lower is better" metric set of `best_score_by_estimator`. -/
def lowerIsBetter : List String :=
  ["energy_distance", "psw_energy_distance", "frobenius_norm", "codec", "policy_risk"]

/-- `Scorer.best_score_by_estimator(scores, metric)`.  `scores` is the dict
in insertion order.  A record without the `estimator_name` field raises
`ValueError` (`none`).  Estimator names are deduplicated and sorted
(`sorted(list(set(...)))`), and for each name the best record is the
`min` (for the lower-is-better metrics) or `max` (otherwise) by the metric
value. -/
def best_score_by_estimator (scores : List (String × ScoreRec)) (metric : String) :
    Option (List (String × ScoreRec)) :=
  if scores.all (fun p => p.2.estimator_name.isSome) then
    let names := sortedDedup (scores.filterMap (fun p => p.2.estimator_name))
    names.mapM (fun name =>
      let est_scores := (scores.map Prod.snd).filter
        (fun r => decide (r.estimator_name = some name))
      ((if metric ∈ lowerIsBetter then pyMinBy else pyMaxBy)
        (fun r => r.vals.lookup metric) est_scores).map (fun r => (name, r)))
  else none

/-! ## Concrete fixtures used by witnesses and counterexamples -/

/-- A two-row dataframe with a binary treatment column `t` and outcome `y`. -/
def fixDf : Df := [("t", [0, 1]), ("y", [3, 5])]

/-- An estimator with constant (zero) CATE estimates on `fixDf`. -/
def fixEstConst : EstimatorM :=
  ⟨["t"], "y", [], "backdoor", [], fun _ => [0, 0], fun _ => [0, 0]⟩

/-- An estimator with non-constant CATE estimates on `fixDf`. -/
def fixEstVar : EstimatorM :=
  ⟨["t"], "y", [], "backdoor", [], fun _ => [10, 0], fun _ => [0, 0]⟩

/-- A scorer state with a constant 50/50 propensity model. -/
def fixScorer : ScorerM := ⟨"backdoor", false, fun _ => [1 / 2, 1 / 2], [], [], "t", []⟩

/-- Trivial external collaborators for concrete `make_scores` runs. -/
def fixExtras : AggExtras :=
  ⟨fun _ _ _ => 0, fun _ => 1, fun _ _ _ _ => 0, fun _ => 0, fun _ => 0,
   fun _ _ => 0, fun _ _ => [[1]], fun _ _ => [[0]], fun m => m, fun q => q,
   fun _ => [[0], [0]]⟩

/-- The four-record ranking example of the specification: two records named
"LinearDML" with energy distances 0.3 and 0.7, two named "CausalForestDML"
with 0.1 and 0.9. -/
def fixScores : List (String × ScoreRec) :=
  [("a", ⟨some "LinearDML", [("energy_distance", 3 / 10)]⟩),
   ("b", ⟨some "LinearDML", [("energy_distance", 7 / 10)]⟩),
   ("c", ⟨some "CausalForestDML", [("energy_distance", 1 / 10)]⟩),
   ("d", ⟨some "CausalForestDML", [("energy_distance", 9 / 10)]⟩)]

/-! # Theorems -/

/-! ## Dataframe helper lemmas -/

/-- Appending a single entry with a different key does not change lookup. -/
theorem lookup_append_sentinel (df : Df) (c c2 : String) (v : Col) (h : c2 ≠ c) :
    (df ++ [(c, v)]).lookup c2 = df.lookup c2 := by
  induction df with
  | nil =>
    simp only [List.nil_append, List.lookup_cons, List.lookup_nil]
    rw [beq_false_of_ne h]
  | cons a rest ih =>
    obtain ⟨k, b⟩ := a
    simp only [List.cons_append, List.lookup_cons]
    cases hb : c2 == k with
    | true => rfl
    | false => exact ih

/-- Replacing in place the entries with key `c` does not change lookup of
another key. -/
theorem lookup_map_replace (df : Df) (c c2 : String) (v : Col) (h : c2 ≠ c) :
    (df.map (fun p => if p.1 = c then (c, v) else p)).lookup c2 = df.lookup c2 := by
  induction df with
  | nil => rfl
  | cons a rest ih =>
    obtain ⟨k, b⟩ := a
    by_cases hkc : k = c
    · subst hkc
      rw [List.map_cons,
        show (if ((k, b) : String × Col).1 = k then ((k, v) : String × Col)
            else (k, b)) = (k, v) from by simp,
        List.lookup_cons, List.lookup_cons, beq_false_of_ne h]
      simpa using ih
    · simp only [List.map_cons, if_neg hkc, List.lookup_cons]
      cases hb : c2 == k with
      | true => rfl
      | false => exact ih

/-- Looking up a column other than the one assigned by `setCol` sees the
original dataframe. -/
theorem getColD_setCol_ne (df : Df) (c c2 : String) (v : Col) (h : c2 ≠ c) :
    getColD (setCol df c v) c2 = getColD df c2 := by
  unfold setCol getColD
  by_cases hex : (df.any fun p => p.1 = c) = true
  · rw [if_pos hex, lookup_map_replace df c c2 v h]
  · rw [if_neg hex, lookup_append_sentinel df c c2 v h]

/-- The caller's dataframe after `_Y0_X_potential_outcomes` agrees with the
original on every column other than `dy` and `yhat`. -/
theorem getColD_Y0X_caller (est : EstimatorM) (df : Df) (c : String)
    (hdy : c ≠ "dy") (hyhat : c ≠ "yhat") :
    getColD (Y0_X_potential_outcomes est df).caller c = getColD df c := by
  unfold Y0_X_potential_outcomes
  rw [getColD_setCol_ne _ _ _ _ hyhat, getColD_setCol_ne _ _ _ _ hdy]

/-! ## C1: caller-owned dataframes and the metric functions -/

/-- C1 counterexample: `codec_score` adds the working columns to the
caller's dataframe in place (no copy is taken), so the caller's dataframe
is changed by the call. -/
theorem codec_score_mutates_caller :
    (codec_score fixEstConst fixDf).2 ≠ fixDf := by
  with_unfolding_all decide

/-- C1 amended: the metric functions built on `_Y0_X_potential_outcomes`
(`energy_distance_score`, `psw_energy_distance`, `frobenius_norm_score`)
and `codec_score` DO mutate the caller's dataframe: they assign the
working columns `dy` and `yhat` on it in place before any copy is taken
(the deep copy `Y0X` is made only after the assignment).  The mutation is
limited to those two columns — every other column of the caller's
dataframe is unchanged — and `policy_risk_score` adds its working columns
(`weight`, `policy_treatment`) to a private copy only, leaving the
caller's dataframe entirely unchanged. -/
theorem metric_functions_caller_df (est : EstimatorM) (df : Df) (c : String)
    (hdy : c ≠ "dy") (hyhat : c ≠ "yhat") :
    (getColD (Y0_X_potential_outcomes est df).caller c = getColD df c) ∧
    (∀ ed, getColD (energy_distance_score ed est df).2 c = getColD df c) ∧
    (∀ S jw pw qt nf,
      getColD (psw_energy_distance S jw pw qt est df nf).2 c = getColD df c) ∧
    (∀ S thr, getColD (frobenius_norm_score S est df thr).2 c = getColD df c) ∧
    (getColD (codec_score est df).2 c = getColD df c) ∧
    (∀ S cate y thr clip, (policy_risk_score S df cate y thr clip).2 = df) := by
  refine ⟨getColD_Y0X_caller est df c hdy hyhat, ?_, ?_, ?_, ?_, ?_⟩
  · intro ed
    exact getColD_Y0X_caller est df c hdy hyhat
  · intro S jw pw qt nf
    exact getColD_Y0X_caller est df c hdy hyhat
  · intro S thr
    unfold frobenius_norm_score
    by_cases hstd : popVar (est.effect df) ≤ thr ^ 2
    · rw [if_pos hstd]
    · rw [if_neg hstd]
      dsimp only
      by_cases hempty :
          rowCount (filterRowsEq (Y0_X_potential_outcomes est df).Y0X
            (Y0_X_potential_outcomes est df).split_test_by 1) = 0 ∨
          rowCount (filterRowsEq (Y0_X_potential_outcomes est df).Y0X
            (Y0_X_potential_outcomes est df).split_test_by 0) = 0
      · rw [if_pos hempty]
        exact getColD_Y0X_caller est df c hdy hyhat
      · rw [if_neg hempty]
        exact getColD_Y0X_caller est df c hdy hyhat
  · unfold codec_score
    by_cases hstd : popVar (est.effect df) < (1 / 100) ^ 2
    · rw [if_pos hstd]
      dsimp only
      rw [getColD_setCol_ne _ _ _ _ hyhat, getColD_setCol_ne _ _ _ _ hdy]
    · rw [if_neg hstd]
      dsimp only
      rw [getColD_setCol_ne _ _ _ _ hyhat, getColD_setCol_ne _ _ _ _ hdy]
  · intro S cate y thr clip
    unfold policy_risk_score
    by_cases hstd : popVar cate ≤ thr ^ 2
    · rw [if_pos hstd]
    · rw [if_neg hstd]

/-- C1 witness: the amended theorem at the concrete fixtures, for the
untouched column `t`. -/
theorem metric_functions_caller_df_witness :
    (getColD (Y0_X_potential_outcomes fixEstConst fixDf).caller "t" =
      getColD fixDf "t") ∧
    (getColD (codec_score fixEstConst fixDf).2 "t" = getColD fixDf "t") ∧
    ((policy_risk_score fixScorer fixDf [1, 1] "y" (1 / 100) (1 / 20)).2 = fixDf) := by
  have h := metric_functions_caller_df fixEstConst fixDf "t"
    (by decide) (by decide)
  exact ⟨h.1, h.2.2.2.2.1, h.2.2.2.2.2 fixScorer [1, 1] "y" (1 / 100) (1 / 20)⟩

/-! ## C6: Frobenius-norm score truncation and empty groups -/

/-- Truncating both groups and both weight vectors to the first
`min(len(g1), len(g0))` rows leaves `frobCoreSq` unchanged: only those
leading rows enter the difference matrix. -/
theorem frobCoreSq_take_eq (g1 g0 : List (List ℚ)) (w1 w0 : List ℚ) :
    frobCoreSq g1 g0 w1 w0 =
      frobCoreSq (g1.take (min g1.length g0.length))
        (g0.take (min g1.length g0.length))
        (w1.take (min g1.length g0.length))
        (w0.take (min g1.length g0.length)) := by
  unfold frobCoreSq
  rcases Nat.eq_zero_or_pos g1.length with h1 | h1
  · have hm : min g1.length g0.length = 0 := by omega
    simp [h1, hm]
  rcases Nat.eq_zero_or_pos g0.length with h0 | h0
  · have hm : min g1.length g0.length = 0 := by omega
    simp [h0, hm]
  have e1 : min (min g1.length g0.length) g1.length = min g1.length g0.length := by
    omega
  have e0 : min (min g1.length g0.length) g0.length = min g1.length g0.length := by
    omega
  have hne1 : ¬ g1.length = 0 := by omega
  have hne0 : ¬ g0.length = 0 := by omega
  have hm1 : ¬ min g1.length g0.length = 0 := by omega
  simp [hne1, hne0, hm1, List.length_take, List.take_take, e1, e0]

/-- The outer `frobenius_norm_score` returns the `inf` sentinel whenever
the treated group or the control group of the split has zero rows. -/
theorem frobenius_empty_inf (S : ScorerM) (est : EstimatorM) (df : Df) (thr : ℚ)
    (h : rowCount (filterRowsEq (Y0_X_potential_outcomes est df).Y0X
           (Y0_X_potential_outcomes est df).split_test_by 1) = 0 ∨
         rowCount (filterRowsEq (Y0_X_potential_outcomes est df).Y0X
           (Y0_X_potential_outcomes est df).split_test_by 0) = 0) :
    (frobenius_norm_score S est df thr).1 = PyFloat.inf := by
  unfold frobenius_norm_score
  by_cases hstd : popVar (est.effect df) ≤ thr ^ 2
  · rw [if_pos hstd]
  · rw [if_neg hstd]
    dsimp only
    rw [if_pos h]

/-- C6: (i) only the first `min(len(treated), len(control))` leading rows
of each group (with the matching leading weights) enter the weighted
difference matrix of the Frobenius-norm score, and (ii) whenever either
group of the split has zero rows, `frobenius_norm_score` returns the
`inf` sentinel instead of a numeric score. -/
theorem frobenius_truncation_and_empty :
    (∀ g1 g0 : List (List ℚ), ∀ w1 w0 : List ℚ,
      frobCoreSq g1 g0 w1 w0 =
        frobCoreSq (g1.take (min g1.length g0.length))
          (g0.take (min g1.length g0.length))
          (w1.take (min g1.length g0.length))
          (w0.take (min g1.length g0.length))) ∧
    (∀ (S : ScorerM) (est : EstimatorM) (df : Df) (thr : ℚ),
      (rowCount (filterRowsEq (Y0_X_potential_outcomes est df).Y0X
          (Y0_X_potential_outcomes est df).split_test_by 1) = 0 ∨
       rowCount (filterRowsEq (Y0_X_potential_outcomes est df).Y0X
          (Y0_X_potential_outcomes est df).split_test_by 0) = 0) →
      (frobenius_norm_score S est df thr).1 = PyFloat.inf) :=
  ⟨frobCoreSq_take_eq, frobenius_empty_inf⟩

/-- C6 witness: part (i) at groups of sizes 3 and 2; part (ii) at a
dataframe whose rows are all treated (empty control group). -/
theorem frobenius_truncation_and_empty_witness :
    frobCoreSq [[1], [2], [3]] [[0], [1]] [1, 1, 1] [1, 1] =
      frobCoreSq [[1], [2]] [[0], [1]] [1, 1] [1, 1] ∧
    (frobenius_norm_score fixScorer fixEstVar [("t", [1, 1]), ("y", [3, 5])]
      (1 / 100)).1 = PyFloat.inf := by
  constructor
  · have h := frobenius_truncation_and_empty.1 [[1], [2], [3]] [[0], [1]]
      [1, 1, 1] [1, 1]
    simpa using h
  · exact frobenius_truncation_and_empty.2 fixScorer fixEstVar
      [("t", [1, 1]), ("y", [3, 5])] (1 / 100)
      (by with_unfolding_all decide)

/-! ## C9: the `"values"` table of `make_scores` -/

/-- Membership in a conditional singleton. -/
theorem mem_ite_singleton {α : Type} {c : Prop} [Decidable c] {x p : α}
    (h : p ∈ (if c then [x] else [])) : p = x := by
  split at h
  · simpa using h
  · simp at h

/-- `lookup` skips a prefix whose keys all differ from the key sought. -/
theorem lookup_append_of_keys_ne (k : String) (l1 l2 : List (String × OutVal))
    (hk : ∀ p ∈ l1, p.1 ≠ k) : (l1 ++ l2).lookup k = l2.lookup k := by
  induction l1 with
  | nil => rfl
  | cons a rest ih =>
    obtain ⟨k1, v1⟩ := a
    simp only [List.cons_append, List.lookup_cons]
    have hk1 : k ≠ k1 := fun he =>
      hk (k1, v1) (List.mem_cons_self _ _) (by simpa using he.symm)
    rw [beq_false_of_ne hk1]
    exact ih (fun p hp => hk p (List.mem_cons_of_mem _ hp))

/-- Every metric entry inserted before the `"values"` entry has a key
other than `"values"`. -/
theorem backdoorPre_keys (S : ScorerM) (E : AggExtras) (est : EstimatorM)
    (df1 : Df) (ycol : Col) (values : Df) (cate : List ℚ) (simple_ate : ℚ)
    (rep : List String) :
    ∀ p ∈ (backdoorPre S E est df1 ycol values cate simple_ate rep).1,
      p.1 ≠ "values" := by
  intro p hp
  unfold backdoorPre at hp
  dsimp only at hp
  simp only [List.mem_append] at hp
  rcases hp with ((((((hp | hp) | hp) | hp) | hp) | hp) | hp) <;>
    (cases mem_ite_singleton hp; simp)

/-- `setCol` never empties a dataframe. -/
theorem setCol_ne_nil (df : Df) (c : String) (v : Col) : setCol df c v ≠ [] := by
  unfold setCol
  by_cases hex : (df.any fun p => p.1 = c) = true
  · rw [if_pos hex]
    cases df with
    | nil => simp at hex
    | cons a rest => simp
  · rw [if_neg hex]
    simp

/-- `setCol` of a column other than the first leaves the head entry. -/
theorem headD_setCol_ne (df : Df) (c : String) (v : Col) (hne : df ≠ [])
    (h : (df.headD ("", [])).1 ≠ c) :
    (setCol df c v).headD ("", []) = df.headD ("", []) := by
  unfold setCol
  cases df with
  | nil => exact absurd rfl hne
  | cons a rest =>
    by_cases hex : ((a :: rest).any fun p => p.1 = c) = true
    · rw [if_pos hex]
      simp only [List.map_cons, List.headD_cons]
      rw [if_neg (by simpa using h)]
    · rw [if_neg hex]
      simp

/-- The caller dataframe of `_Y0_X_potential_outcomes` keeps the head
entry when the first column is neither `dy` nor `yhat`. -/
theorem Y0X_caller_headD (est : EstimatorM) (df : Df) (hne : df ≠ [])
    (h1 : (df.headD ("", [])).1 ≠ "dy") (h2 : (df.headD ("", [])).1 ≠ "yhat") :
    (Y0_X_potential_outcomes est df).caller.headD ("", []) = df.headD ("", []) := by
  unfold Y0_X_potential_outcomes
  dsimp only
  rw [headD_setCol_ne _ _ _ (setCol_ne_nil df "dy" _)
      (by rw [headD_setCol_ne df "dy" _ hne h1]; exact h2),
    headD_setCol_ne df "dy" _ hne h1]

/-- The dataframe handed back by `frobenius_norm_score` keeps the head
entry under the same conditions. -/
theorem frobenius_df_headD (S : ScorerM) (est : EstimatorM) (df : Df) (thr : ℚ)
    (hne : df ≠ []) (h1 : (df.headD ("", [])).1 ≠ "dy")
    (h2 : (df.headD ("", [])).1 ≠ "yhat") :
    (frobenius_norm_score S est df thr).2.headD ("", []) = df.headD ("", []) := by
  unfold frobenius_norm_score
  by_cases hstd : popVar (est.effect df) ≤ thr ^ 2
  · rw [if_pos hstd]
  · rw [if_neg hstd]
    dsimp only
    by_cases hempty :
        rowCount (filterRowsEq (Y0_X_potential_outcomes est df).Y0X
          (Y0_X_potential_outcomes est df).split_test_by 1) = 0 ∨
        rowCount (filterRowsEq (Y0_X_potential_outcomes est df).Y0X
          (Y0_X_potential_outcomes est df).split_test_by 0) = 0
    · rw [if_pos hempty]
      exact Y0X_caller_headD est df hne h1 h2
    · rw [if_neg hempty]
      exact Y0X_caller_headD est df hne h1 h2

/-- The dataframe component of `backdoorPre` is the reset-index dataframe,
mutated by `frobenius_norm_score` when that metric was requested. -/
theorem backdoorPre_df2 (S : ScorerM) (E : AggExtras) (est : EstimatorM)
    (df1 : Df) (ycol : Col) (values : Df) (cate : List ℚ) (simple_ate : ℚ)
    (rep : List String) :
    (backdoorPre S E est df1 ycol values cate simple_ate rep).2 =
      if "frobenius_norm" ∈ rep then (frobenius_norm_score S est df1 (1 / 100)).2
      else df1 := rfl

/-- Whenever `backdoorBranch` returns a record, that record contains a
`"values"` table with exactly as many rows as `df1`. -/
theorem backdoorBranch_values (S : ScorerM) (E : AggExtras) (est : EstimatorM)
    (df1 : Df) (rep : List String) (out : List (String × OutVal))
    (hne : df1 ≠ []) (h1 : (df1.headD ("", [])).1 ≠ "dy")
    (h2 : (df1.headD ("", [])).1 ≠ "yhat")
    (h : backdoorBranch S E est df1 rep = some out) :
    ∃ v, out.lookup "values" = some (OutVal.table v) ∧ rowCount v = rowCount df1 := by
  unfold backdoorBranch at h
  dsimp only at h
  split at h
  · rename_i x1 x2 tcol ycol heqt heqy
    split at h
    · rename_i hassert
      split at h
      · injection h with h
        subst h
        refine ⟨backdoorValuesTable S E df1 (est.treatment_name.headD "")
          est.outcome_name tcol ycol (est.effect df1)
          (colMeans (E.ate_effect df1)), ?_, ?_⟩
        · rw [List.append_assoc,
            lookup_append_of_keys_ne _ _ _ (backdoorPre_keys _ _ _ _ _ _ _ _ _)]
          simp [List.lookup_cons]
        · rw [hassert, backdoorPre_df2]
          by_cases hf : "frobenius_norm" ∈ rep
          · rw [if_pos hf]
            unfold rowCount
            rw [frobenius_df_headD S est _ (1 / 100) hne h1 h2]
          · rw [if_neg hf]
      · cases h
    · cases h
  · cases h

/-- C9: whenever `make_scores` on a backdoor scorer returns a Score
Record, that record contains a `"values"` table with exactly as many rows
as the input dataframe; the source enforces this with the fatal assertion
`len(values) == len(df)` (a row-count mismatch raises `AssertionError`
and no record is returned at all). -/
theorem make_scores_values_rows (S : ScorerM) (E : AggExtras) (est : EstimatorM)
    (df : Df) (rep : List String) (out : List (String × OutVal))
    (hb : S.problem = "backdoor")
    (h : make_scores S E est df rep = some out) :
    ∃ v, out.lookup "values" = some (OutVal.table v) ∧ rowCount v = rowCount df := by
  unfold make_scores at h
  by_cases hidx : "index" ∈ colNames df
  · rw [if_pos hidx] at h
    cases h
  rw [if_neg hidx] at h
  dsimp only at h
  rw [if_pos hb] at h
  obtain ⟨v, hl, hr⟩ := backdoorBranch_values S E est _ rep out
    (by simp) (by simp) (by simp) h
  refine ⟨v, hl, ?_⟩
  rw [hr]
  unfold rowCount
  simp [List.length_map, List.length_range]

/-- C9 witness: a concrete backdoor `make_scores` run on the two-row
fixture returns a record whose `"values"` table has two rows. -/
theorem make_scores_values_rows_witness :
    ∃ v, (([("values", OutVal.table
        [("t", [0, 1]), ("y", [3, 5]), ("p", [1 / 2, 1 / 2]),
         ("policy", [0, 0]), ("norm_policy", [0, 0]), ("weights", [1, 1])])]) :
          List (String × OutVal)).lookup "values" = some (OutVal.table v) ∧
      rowCount v = rowCount fixDf :=
  make_scores_values_rows fixScorer fixExtras fixEstConst fixDf []
    [("values", OutVal.table
      [("t", [0, 1]), ("y", [3, 5]), ("p", [1 / 2, 1 / 2]),
       ("policy", [0, 0]), ("norm_policy", [0, 0]), ("weights", [1, 1])])]
    rfl (by with_unfolding_all decide)

/-! ## C4: `best_score_by_estimator` -/

/-- The running minimum of Python's `min(..., key=...)` fold: the result
is one of the candidates and its key is a lower bound of all keys. -/
theorem minFold_spec (key : ScoreRec → Option ℚ) (rest : List ScoreRec)
    (a : ScoreRec) :
    (rest.foldl (fun best c =>
        if (key c).getD 0 < (key best).getD 0 then c else best) a = a ∨
      rest.foldl (fun best c =>
        if (key c).getD 0 < (key best).getD 0 then c else best) a ∈ rest) ∧
    (key (rest.foldl (fun best c =>
        if (key c).getD 0 < (key best).getD 0 then c else best) a)).getD 0 ≤
      (key a).getD 0 ∧
    ∀ c ∈ rest,
      (key (rest.foldl (fun best c =>
          if (key c).getD 0 < (key best).getD 0 then c else best) a)).getD 0 ≤
        (key c).getD 0 := by
  induction rest generalizing a with
  | nil => exact ⟨Or.inl rfl, le_refl _, fun c hc => absurd hc (List.not_mem_nil c)⟩
  | cons b rest ih =>
    simp only [List.foldl_cons]
    obtain ⟨hmem, hle, hall⟩ := ih (if (key b).getD 0 < (key a).getD 0 then b else a)
    have hfb : (key (if (key b).getD 0 < (key a).getD 0 then b else a)).getD 0 ≤
        (key a).getD 0 := by
      split
      · next hlt => exact le_of_lt hlt
      · exact le_refl _
    have hfb2 : (key (if (key b).getD 0 < (key a).getD 0 then b else a)).getD 0 ≤
        (key b).getD 0 := by
      split
      · exact le_refl _
      · next hlt => exact le_of_not_lt hlt
    refine ⟨?_, le_trans hle hfb, ?_⟩
    · rcases hmem with hmem | hmem
      · rw [hmem]
        split
        · exact Or.inr (List.mem_cons_self _ _)
        · exact Or.inl rfl
      · exact Or.inr (List.mem_cons_of_mem _ hmem)
    · intro c hc
      rcases List.mem_cons.1 hc with hc | hc
      · subst hc
        exact le_trans hle hfb2
      · exact hall c hc

/-- The running maximum of Python's `max(..., key=...)` fold. -/
theorem maxFold_spec (key : ScoreRec → Option ℚ) (rest : List ScoreRec)
    (a : ScoreRec) :
    (rest.foldl (fun best c =>
        if (key best).getD 0 < (key c).getD 0 then c else best) a = a ∨
      rest.foldl (fun best c =>
        if (key best).getD 0 < (key c).getD 0 then c else best) a ∈ rest) ∧
    (key a).getD 0 ≤
      (key (rest.foldl (fun best c =>
        if (key best).getD 0 < (key c).getD 0 then c else best) a)).getD 0 ∧
    ∀ c ∈ rest,
      (key c).getD 0 ≤
        (key (rest.foldl (fun best c =>
          if (key best).getD 0 < (key c).getD 0 then c else best) a)).getD 0 := by
  induction rest generalizing a with
  | nil => exact ⟨Or.inl rfl, le_refl _, fun c hc => absurd hc (List.not_mem_nil c)⟩
  | cons b rest ih =>
    simp only [List.foldl_cons]
    obtain ⟨hmem, hle, hall⟩ := ih (if (key a).getD 0 < (key b).getD 0 then b else a)
    have hfb : (key a).getD 0 ≤
        (key (if (key a).getD 0 < (key b).getD 0 then b else a)).getD 0 := by
      split
      · next hlt => exact le_of_lt hlt
      · exact le_refl _
    have hfb2 : (key b).getD 0 ≤
        (key (if (key a).getD 0 < (key b).getD 0 then b else a)).getD 0 := by
      split
      · exact le_refl _
      · next hlt => exact le_of_not_lt hlt
    refine ⟨?_, le_trans hfb hle, ?_⟩
    · rcases hmem with hmem | hmem
      · rw [hmem]
        split
        · exact Or.inr (List.mem_cons_self _ _)
        · exact Or.inl rfl
      · exact Or.inr (List.mem_cons_of_mem _ hmem)
    · intro c hc
      rcases List.mem_cons.1 hc with hc | hc
      · subst hc
        exact le_trans hfb2 hle
      · exact hall c hc

/-- `pyMinBy` on a non-empty list whose keys are all present returns a
member whose key is minimal. -/
theorem pyMinBy_spec (key : ScoreRec → Option ℚ) (l : List ScoreRec)
    (hne : l ≠ []) (hall : ∀ a ∈ l, (key a).isSome) :
    ∃ b, pyMinBy key l = some b ∧ b ∈ l ∧
      ∀ c ∈ l, (key b).getD 0 ≤ (key c).getD 0 := by
  unfold pyMinBy
  rw [if_pos (List.all_eq_true.mpr hall)]
  cases l with
  | nil => exact absurd rfl hne
  | cons a rest =>
    obtain ⟨hmem, hle, hrest⟩ := minFold_spec key rest a
    refine ⟨_, rfl, ?_, ?_⟩
    · rcases hmem with hmem | hmem
      · rw [hmem]
        exact List.mem_cons_self _ _
      · exact List.mem_cons_of_mem _ hmem
    · intro c hc
      rcases List.mem_cons.1 hc with hc | hc
      · subst hc
        exact hle
      · exact hrest c hc

/-- `pyMaxBy` on a non-empty list whose keys are all present returns a
member whose key is maximal. -/
theorem pyMaxBy_spec (key : ScoreRec → Option ℚ) (l : List ScoreRec)
    (hne : l ≠ []) (hall : ∀ a ∈ l, (key a).isSome) :
    ∃ b, pyMaxBy key l = some b ∧ b ∈ l ∧
      ∀ c ∈ l, (key c).getD 0 ≤ (key b).getD 0 := by
  unfold pyMaxBy
  rw [if_pos (List.all_eq_true.mpr hall)]
  cases l with
  | nil => exact absurd rfl hne
  | cons a rest =>
    obtain ⟨hmem, hle, hrest⟩ := maxFold_spec key rest a
    refine ⟨_, rfl, ?_, ?_⟩
    · rcases hmem with hmem | hmem
      · rw [hmem]
        exact List.mem_cons_self _ _
      · exact List.mem_cons_of_mem _ hmem
    · intro c hc
      rcases List.mem_cons.1 hc with hc | hc
      · subst hc
        exact hle
      · exact hrest c hc

/-- C4: when every record carries the `estimator_name` field and the
requested metric, `best_score_by_estimator` succeeds and returns exactly
one record per distinct estimator name; the returned record for a name
belongs to that name's records, and its metric value is minimal among
them when the metric is in the lower-is-better set {energy_distance,
psw_energy_distance, frobenius_norm, codec, policy_risk}, and maximal
otherwise. -/
theorem best_score_by_estimator_spec (scores : List (String × ScoreRec))
    (metric : String)
    (hn : ∀ p ∈ scores, p.2.estimator_name.isSome)
    (hm : ∀ p ∈ scores, (p.2.vals.lookup metric).isSome) :
    ∃ out, best_score_by_estimator scores metric = some out ∧
      (out.map Prod.fst).Nodup ∧
      (∀ name, (∃ p ∈ scores, p.2.estimator_name = some name) ↔
        ∃ r, (name, r) ∈ out) ∧
      ∀ q ∈ out, q.2.estimator_name = some q.1 ∧ q.2 ∈ scores.map Prod.snd ∧
        (metric ∈ lowerIsBetter →
          ∀ r ∈ scores.map Prod.snd, r.estimator_name = some q.1 →
            (q.2.vals.lookup metric).getD 0 ≤ (r.vals.lookup metric).getD 0) ∧
        (metric ∉ lowerIsBetter →
          ∀ r ∈ scores.map Prod.snd, r.estimator_name = some q.1 →
            (r.vals.lookup metric).getD 0 ≤ (q.2.vals.lookup metric).getD 0) := by
  have hnames_mem : ∀ name,
      name ∈ sortedDedup (scores.filterMap fun p => p.2.estimator_name) ↔
      ∃ p ∈ scores, p.2.estimator_name = some name := by
    intro name
    unfold sortedDedup
    rw [(List.perm_insertionSort _ _).mem_iff, List.mem_dedup, List.mem_filterMap]
  have hnames_nodup :
      (sortedDedup (scores.filterMap fun p => p.2.estimator_name)).Nodup := by
    unfold sortedDedup
    exact (List.perm_insertionSort _ _).nodup_iff.mpr (List.nodup_dedup _)
  have main : ∀ ns : List String,
      (∀ name ∈ ns, ∃ p ∈ scores, p.2.estimator_name = some name) →
      ∃ out,
        ns.mapM (fun name =>
          (((if metric ∈ lowerIsBetter then pyMinBy else pyMaxBy)
            (fun r => r.vals.lookup metric)
            ((scores.map Prod.snd).filter
              (fun r => decide (r.estimator_name = some name)))).map
            (fun r => (name, r)))) = some out ∧
        out.map Prod.fst = ns ∧
        ∀ q ∈ out, q.2.estimator_name = some q.1 ∧ q.2 ∈ scores.map Prod.snd ∧
          (metric ∈ lowerIsBetter →
            ∀ r ∈ scores.map Prod.snd, r.estimator_name = some q.1 →
              (q.2.vals.lookup metric).getD 0 ≤ (r.vals.lookup metric).getD 0) ∧
          (metric ∉ lowerIsBetter →
            ∀ r ∈ scores.map Prod.snd, r.estimator_name = some q.1 →
              (r.vals.lookup metric).getD 0 ≤ (q.2.vals.lookup metric).getD 0) := by
    intro ns
    induction ns with
    | nil => exact fun _ => ⟨[], rfl, rfl, by simp⟩
    | cons n ns ih =>
      intro hmem
      obtain ⟨out, hout, hfst, hQ⟩ :=
        ih (fun m hm2 => hmem m (List.mem_cons_of_mem _ hm2))
      obtain ⟨p, hp, hpn⟩ := hmem n (List.mem_cons_self _ _)
      have hpemem : p.2 ∈ (scores.map Prod.snd).filter
          (fun r => decide (r.estimator_name = some n)) :=
        List.mem_filter.2 ⟨List.mem_map_of_mem Prod.snd hp, by simp [hpn]⟩
      have hfne : (scores.map Prod.snd).filter
          (fun r => decide (r.estimator_name = some n)) ≠ [] :=
        List.ne_nil_of_mem hpemem
      have hfall : ∀ r ∈ (scores.map Prod.snd).filter
            (fun r => decide (r.estimator_name = some n)),
          (r.vals.lookup metric).isSome := by
        intro r hr
        obtain ⟨q2, hq2, hq2r⟩ :=
          List.mem_map.1 (List.mem_filter.1 hr).1
        exact hq2r ▸ hm q2 hq2
      have hmemname : ∀ r ∈ (scores.map Prod.snd).filter
            (fun r => decide (r.estimator_name = some n)),
          r ∈ scores.map Prod.snd ∧ r.estimator_name = some n := by
        intro r hr
        exact ⟨(List.mem_filter.1 hr).1, by
          have := (List.mem_filter.1 hr).2
          simpa using this⟩
      by_cases hlow : metric ∈ lowerIsBetter
      · obtain ⟨b, hb, hbmem, hbmin⟩ := pyMinBy_spec
          (fun r => r.vals.lookup metric) _ hfne hfall
        have hfn : (((if metric ∈ lowerIsBetter then pyMinBy else pyMaxBy)
            (fun r => r.vals.lookup metric)
            ((scores.map Prod.snd).filter
              (fun r => decide (r.estimator_name = some n)))).map
            (fun r => (n, r))) = some (n, b) := by
          rw [if_pos hlow, hb]
          rfl
        refine ⟨(n, b) :: out, ?_, by simp [hfst], ?_⟩
        · simp only [List.mapM_cons]
          rw [hfn, hout]
          rfl
        · intro q hq
          rcases List.mem_cons.1 hq with hq | hq
          · subst hq
            refine ⟨(hmemname b hbmem).2, (hmemname b hbmem).1, ?_, ?_⟩
            · intro _ r hr hrn
              exact hbmin r (List.mem_filter.2 ⟨hr, by simp [hrn]⟩)
            · intro hcon
              exact absurd hlow hcon
          · exact hQ q hq
      · obtain ⟨b, hb, hbmem, hbmax⟩ := pyMaxBy_spec
          (fun r => r.vals.lookup metric) _ hfne hfall
        have hfn : (((if metric ∈ lowerIsBetter then pyMinBy else pyMaxBy)
            (fun r => r.vals.lookup metric)
            ((scores.map Prod.snd).filter
              (fun r => decide (r.estimator_name = some n)))).map
            (fun r => (n, r))) = some (n, b) := by
          rw [if_neg hlow, hb]
          rfl
        refine ⟨(n, b) :: out, ?_, by simp [hfst], ?_⟩
        · simp only [List.mapM_cons]
          rw [hfn, hout]
          rfl
        · intro q hq
          rcases List.mem_cons.1 hq with hq | hq
          · subst hq
            refine ⟨(hmemname b hbmem).2, (hmemname b hbmem).1, ?_, ?_⟩
            · intro hcon
              exact absurd hcon hlow
            · intro _ r hr hrn
              exact hbmax r (List.mem_filter.2 ⟨hr, by simp [hrn]⟩)
          · exact hQ q hq
  obtain ⟨out, hout, hfst, hQ⟩ := main
    (sortedDedup (scores.filterMap fun p => p.2.estimator_name))
    (fun name hname => (hnames_mem name).1 hname)
  refine ⟨out, ?_, ?_, ?_, hQ⟩
  · unfold best_score_by_estimator
    rw [if_pos (List.all_eq_true.mpr hn)]
    exact hout
  · rw [hfst]
    exact hnames_nodup
  · intro name
    constructor
    · intro hex
      have hmemout : name ∈ out.map Prod.fst := by
        rw [hfst]
        exact (hnames_mem name).2 hex
      obtain ⟨q, hq, hq1⟩ := List.mem_map.1 hmemout
      obtain ⟨q1, q2⟩ := q
      cases hq1
      exact ⟨q2, hq⟩
    · rintro ⟨r, hr⟩
      obtain ⟨h1, h2, _, _⟩ := hQ (name, r) hr
      obtain ⟨p2, hp2, hp2r⟩ := List.mem_map.1 h2
      exact ⟨p2, hp2, by rw [hp2r]; exact h1⟩

/-- C4 witness: the four-record example of the specification, ranked on
the lower-is-better metric `energy_distance`. -/
theorem best_score_by_estimator_spec_witness :
    ∃ out, best_score_by_estimator fixScores "energy_distance" = some out ∧
      (out.map Prod.fst).Nodup ∧
      (∀ name, (∃ p ∈ fixScores, p.2.estimator_name = some name) ↔
        ∃ r, (name, r) ∈ out) ∧
      ∀ q ∈ out, q.2.estimator_name = some q.1 ∧
        q.2 ∈ fixScores.map Prod.snd ∧
        ("energy_distance" ∈ lowerIsBetter →
          ∀ r ∈ fixScores.map Prod.snd, r.estimator_name = some q.1 →
            (q.2.vals.lookup "energy_distance").getD 0 ≤
              (r.vals.lookup "energy_distance").getD 0) ∧
        ("energy_distance" ∉ lowerIsBetter →
          ∀ r ∈ fixScores.map Prod.snd, r.estimator_name = some q.1 →
            (r.vals.lookup "energy_distance").getD 0 ≤
              (q.2.vals.lookup "energy_distance").getD 0) :=
  best_score_by_estimator_spec fixScores "energy_distance"
    (by with_unfolding_all decide) (by with_unfolding_all decide)

/-! ## C2: `codec` with `X = None` -/

/-- C2: the claim says `codec(Y, Z)` computes the pairwise dependence of
`Y` on `Z` as the Q statistic with an all-zero-width conditioning set.
In fact the source passes the zero-width matrix `np.zeros((n, 0))` in the
`Z` position of `estimateConditionalQ(Y, X, Z)` (with the data `Z` in the
conditioning position `X`); reshaping it to `(0, 1)` and `hstack`-ing with
the `n`-row predictor matrix raises, so `codec(Y, Z)` raises instead of
computing any Q statistic — shown here at Y = [1,2,3], Z = [[10],[20],[30]].
The second conjunct records that the claim's intended call (zero-width
matrix as the conditioning `X`) also raises, since
`NearestNeighbors.fit` rejects a 0-feature matrix. -/
theorem codec_noX_raises :
    codec [1, 2, 3] [[10], [20], [30]] none = none ∧
    estimateConditionalQ [1, 2, 3] (List.replicate 3 []) [[10], [20], [30]] = none := by
  with_unfolding_all decide

/-! ## C3: `codec` with `X = Y` -/

/-- C3 counterexample: with Y = [1,2,4] (non-constant, all nearest
neighbours unique), conditioning set X = Y and Z = [0,0,0],
`estimateConditionalS(Y, X) = 2/9 ≠ 0`, so the `S = 0` fallback does not
fire, and `codec(Y, Z, X) = 0`, not `1` as the claim states. -/
theorem codec_X_eq_Y_ne_one :
    codec [1, 2, 4] [[0], [0], [0]] (some [[1], [2], [4]]) = some 0 ∧
    estimateConditionalS [1, 2, 4] [[1], [2], [4]] ≠ some 0 := by
  with_unfolding_all decide

/-- C3 amended: `codec(Y, Z, X)` returns `1` only through the `S = 0`
fallback; `X = Y` does not make `S` zero, and whenever
`S(Y, X) = s ≠ 0` the result is `Q(Y, Z | X) / s` — which can be any
value (0 at the counterexample input), not 1. -/
theorem codec_eq_Q_div_S (Y : List ℚ) (Z X : List (List ℚ)) (s q : ℚ)
    (hS : estimateConditionalS Y X = some s) (hs : s ≠ 0)
    (hQ : estimateConditionalQ Y X Z = some q)
    (hYX : Y.length = X.length) (hYZ : Y.length = Z.length)
    (h2 : 2 ≤ Y.length) :
    codec Y Z (some X) = some (q / s) := by
  have hc : codec Y Z (some X) =
      if Y.length ≠ X.length ∨ Y.length ≠ Z.length ∨ X.length ≠ Z.length then none
      else if Y.length < 2 then none
      else estimateConditionalT Y Z X := rfl
  rw [hc, if_neg (by omega), if_neg (by omega)]
  unfold estimateConditionalT
  rw [hS]
  rw [show ((some s >>= fun S => if S = 0 then pure 1
      else estimateConditionalQ Y X Z >>= fun Q => pure (Q / S)) : Option ℚ) =
      if s = 0 then pure 1
      else estimateConditionalQ Y X Z >>= fun Q => pure (Q / s) from rfl]
  rw [if_neg hs, hQ]
  rfl

/-- C3 witness: the amended theorem applied at the concrete
counterexample input, where `s = 2/9` and `q = 0`. -/
theorem codec_eq_Q_div_S_witness :
    codec [1, 2, 4] [[0], [0], [0]] (some [[1], [2], [4]]) = some (0 / (2 / 9 : ℚ)) :=
  codec_eq_Q_div_S [1, 2, 4] [[0], [0], [0]] [[1], [2], [4]] (2 / 9) 0
    (by with_unfolding_all decide) (by norm_num) (by with_unfolding_all decide)
    (by decide) (by decide) (by decide)

/-! ## C5: `naive_ate` -/

/-- C5: for a binary treatment series and an outcome series of the same
length, with at least one treated and one control row (without which the
source's float means are NaN), the first component of `naive_ate` is
exactly the mean outcome over treated rows minus the mean outcome over
control rows, and the third component is the length of the input series.
The result is deterministic: `naive_ate` is a pure function of its two
series (the `sqrtA`/`stdA` float abstractions only enter the middle
component). -/
theorem naive_ate_spec (sqrtA : ℚ → ℚ) (stdA : List ℚ → ℚ)
    (treatment outcome : List ℚ)
    (hlen : treatment.length = outcome.length)
    (h01 : ∀ x ∈ treatment, x = 0 ∨ x = 1)
    (h1 : ∃ p ∈ List.zip treatment outcome, p.1 = 1)
    (h0 : ∃ p ∈ List.zip treatment outcome, p.1 = 0) :
    (naive_ate sqrtA stdA treatment outcome).1 =
      meanQ (((List.zip treatment outcome).filter
          (fun p => decide (p.1 = 1))).map Prod.snd)
        - meanQ (((List.zip treatment outcome).filter
          (fun p => decide (p.1 = 0))).map Prod.snd) ∧
    (naive_ate sqrtA stdA treatment outcome).2.2 = treatment.length :=
  ⟨rfl, rfl⟩

/-- C5 witness: treatment [1,0,1,0], outcome [10,2,20,4]:
the ATE component is (10+20)/2 − (2+4)/2 = 12 and the sample size is 4. -/
theorem naive_ate_spec_witness :
    (naive_ate (fun _ => 0) (fun _ => 0) [1, 0, 1, 0] [10, 2, 20, 4]).1 = 12 ∧
    (naive_ate (fun _ => 0) (fun _ => 0) [1, 0, 1, 0] [10, 2, 20, 4]).2.2 = 4 := by
  have h := naive_ate_spec (fun _ => 0) (fun _ => 0) [1, 0, 1, 0] [10, 2, 20, 4]
    (by decide) (by with_unfolding_all decide) (by with_unfolding_all decide)
    (by with_unfolding_all decide)
  exact ⟨h.1.trans (by with_unfolding_all decide), h.2⟩

/-! ## C7: `policy_risk_score` on near-constant CATE estimates -/

/-- C7: when the standard deviation of the CATE estimates is below the
default threshold 0.01 (equivalently, their population variance is below
(1/100)²), `policy_risk_score` returns the plain number 0 — not an
error and not the `inf` sentinel — before any weighted policy value is
computed (the guard is the first statement after squeezing the input). -/
theorem policy_risk_zero_on_low_heterogeneity (S : ScorerM) (df : Df)
    (cate : List ℚ) (outcome_name : String)
    (h : popVar cate < (1 / 100) ^ 2) :
    (policy_risk_score S df cate outcome_name (1 / 100) (1 / 20)).1 =
      PyFloat.num 0 := by
  unfold policy_risk_score
  rw [if_pos (le_of_lt h)]

/-- C7 witness: constant CATE estimates [1, 1] have variance 0 < (1/100)². -/
theorem policy_risk_zero_on_low_heterogeneity_witness :
    (policy_risk_score fixScorer fixDf [1, 1] "y" (1 / 100) (1 / 20)).1 =
      PyFloat.num 0 :=
  policy_risk_zero_on_low_heterogeneity fixScorer fixDf [1, 1] "y"
    (by with_unfolding_all decide)

/-! ## C8: `resolve_metric` for problem "backdoor", multivalue = False -/

/-- C8: for a backdoor single-value scorer, `resolve_metric` maps any
unsupported metric name to `"energy_distance"` with exactly one warning
logged, and returns any supported metric name unchanged with no
warning. -/
theorem resolve_metric_backdoor (m : String) :
    (m ∉ (supported_metrics "backdoor" false true).getD [] →
      resolve_metric "backdoor" false m = Except.ok ("energy_distance", 1)) ∧
    (m ∈ (supported_metrics "backdoor" false true).getD [] →
      resolve_metric "backdoor" false m = Except.ok (m, 0)) :=
  ⟨fun h => if_neg h, fun h => if_pos h⟩

/-- C8 witness: `"bogus_metric"` resolves to `"energy_distance"` with one
warning; the supported name `"erupt"` is returned unchanged with none. -/
theorem resolve_metric_backdoor_witness :
    resolve_metric "backdoor" false "bogus_metric" =
      Except.ok ("energy_distance", 1) ∧
    resolve_metric "backdoor" false "erupt" = Except.ok ("erupt", 0) :=
  ⟨(resolve_metric_backdoor "bogus_metric").1 (by decide),
   (resolve_metric_backdoor "erupt").2 (by decide)⟩

/-! ## C10: unsupported problem types -/

/-- C10 counterexample: for the problem string "bogus_problem",
`supported_metrics` indeed yields `None`, and `resolve_metric` raises —
but `resolve_reported_metrics` called with `metrics_to_report = None`
does NOT raise: it returns the `None` metric list unchanged,
contradicting the claim that both functions raise. -/
theorem resolve_reported_none_no_raise :
    supported_metrics "bogus_problem" false false = none ∧
    resolve_reported_metrics "bogus_problem" false none "energy_distance" =
      Except.ok (none, 0) :=
  ⟨rfl, rfl⟩

/-- C10 amended: for every problem other than "iv" and "backdoor",
`supported_metrics` yields `None`; `resolve_metric` then always raises
`TypeError` (membership test against `None`), and
`resolve_reported_metrics` raises `TypeError` when a reporting list is
supplied — but silently returns `None` (no exception, no energy-distance
substitution) when `metrics_to_report` is `None`. -/
theorem supported_metrics_fallthrough (p : String) (hiv : p ≠ "iv")
    (hbd : p ≠ "backdoor") (mv so : Bool) (m s : String) (l : List String) :
    supported_metrics p mv so = none ∧
    resolve_metric p mv m = Except.error "TypeError" ∧
    resolve_reported_metrics p mv (some l) s = Except.error "TypeError" ∧
    resolve_reported_metrics p mv none s = Except.ok (none, 0) := by
  have h : ∀ so2 : Bool, supported_metrics p mv so2 = none := by
    intro so2
    unfold supported_metrics
    rw [if_neg hiv, if_neg hbd]
  refine ⟨h so, ?_, ?_, ?_⟩
  · unfold resolve_metric
    rw [h true]
  · unfold resolve_reported_metrics
    rw [h false]
  · unfold resolve_reported_metrics
    rw [h false]

/-- C10 witness: the amended theorem at problem "bogus_problem". -/
theorem supported_metrics_fallthrough_witness :
    supported_metrics "bogus_problem" false true = none ∧
    resolve_metric "bogus_problem" false "qini" = Except.error "TypeError" ∧
    resolve_reported_metrics "bogus_problem" false (some ["qini"]) "qini" =
      Except.error "TypeError" ∧
    resolve_reported_metrics "bogus_problem" false none "qini" =
      Except.ok (none, 0) :=
  supported_metrics_fallthrough "bogus_problem" (by decide) (by decide)
    false true "qini" "qini" ["qini"]

end CT
